import Mathlib

/-!
# QConf monitor: the check thread

A shallow embedding of `monitor/src/monitor_check_thread.cc`:

* `CheckThread._isServiceExist`: the non-blocking TCP connect probe,
* `CheckThread._tryConnect`: the scan of one service father (group),
* `CheckThread.ThreadMain`: the periodic timer loop,
* `CheckThread.CronHandle`: one scan followed by the slot rotation.

System calls, the clock, the configuration and the ZooKeeper-backed maps are
inputs of the model; everything the code computes from them is a Lean function.
-/

namespace CheckThread

/-! ## Status values and service items -/

/-- Modelled from the spec: the status constants `STATUS_UNKNOWN`, `STATUS_OFFLINE`,
`STATUS_UP` and `STATUS_DOWN` of `monitor_const.h` (a header that is not part of the
sources at hand); the spec lists exactly these four values for an instance. -/
inductive Status where
  | STATUS_UNKNOWN
  | STATUS_OFFLINE
  | STATUS_UP
  | STATUS_DOWN
  deriving DecidableEq, Repr

open Status

/-- The fields of `ServiceItem` that the check thread reads: `host()`, `port()`,
`connectTimeout()` and `status()`. -/
structure ServiceItem where
  host : String
  port : Int
  connectTimeout : Int
  status : Status
  deriving DecidableEq, Repr

/-! ## The probe `_isServiceExist` -/

/-- The value of `errno` that `connect` leaves on a non-blocking socket whose
connection is still being established (Linux `errno.h`). -/
def EINPROGRESS : Int := 115

/-- The number of descriptors an `fd_set` holds (Linux `sys/select.h`): `FD_SET` and
`FD_ISSET` are defined for descriptors below it only. -/
def FD_SETSIZE : Int := 1024

/-- What `select` reports: its return value and, for the probed socket, the result of
`FD_ISSET` on the read, write and error sets afterwards. -/
structure SelectResult where
  ret : Int
  inRead : Bool
  inWrite : Bool
  inErr : Bool
  deriving DecidableEq, Repr

/-- The behaviour of the network during one probe: the return value of `socket`, the
return value of `connect` with the `errno` it leaves, and the outcome of `select` as a
function of the `tv_sec` of the timeout it is given. -/
structure Net where
  socketRet : Int
  connectRet : Int
  connectErrno : Int
  select : Int → SelectResult

/-- Lines 86-116: the decision taken from the outcome of `select`, together with the
number of `LOG_ERROR` lines written on the way. -/
def readiness (r : SelectResult) (curStatus : Status) : Bool × Nat :=
  if r.ret ≤ 0 then
    (false, if curStatus ≠ STATUS_DOWN then 1 else 0)
  else
    if !r.inRead && !r.inWrite then
      (false, if curStatus ≠ STATUS_DOWN then 1 else 0)
    else if r.inErr then
      (false, 0)
    else if r.inWrite && r.inRead then
      (false, 0)
    else if r.inRead || r.inWrite then
      (true, 0)
    else
      (false, 0)

/-- What one call of `_isServiceExist` did: the returned flag, the `conn_tv.tv_sec`
handed to `select` (when `select` was reached), whether `close(sock)` ran and how many
`LOG_ERROR` lines were written. -/
structure ProbeRun where
  exist : Bool
  waited : Option Int
  closed : Bool
  logged : Nat
  deriving DecidableEq, Repr

/-- Lines 36-119: `CheckThread::_isServiceExist`. The address, host and port only
reach `connect` and the log, so they are left out. The three `fd_set`s of line 42 hold
`FD_SETSIZE` descriptors and lines 80-85 write the socket into them without a check:
there is no result when the call gets that far with a socket that does not fit. -/
def _isServiceExist (net : Net) (timeout : Int) (curStatus : Status) : Option ProbeRun :=
  let timeout := if timeout ≤ 0 then 1 else timeout
  if net.socketRet < 0 then
    some ⟨false, none, false, 1⟩
  else
    let conn_tv_sec := timeout
    if net.connectRet ≠ 0 ∧ net.connectErrno ≠ EINPROGRESS then
      some ⟨false, none, true, if curStatus ≠ STATUS_DOWN then 1 else 0⟩
    else if net.socketRet ≥ FD_SETSIZE then
      none
    else
      let d := readiness (net.select conn_tv_sec) curStatus
      some ⟨d.1, some conn_tv_sec, true, d.2⟩

/-! ## The scan `_tryConnect` -/

/-- The two effects of a scan that can be observed from outside: a call of
`_isServiceExist` and a call of `Schedule(updateServiceFunc, (ipPort, status))` on the
update thread. -/
inductive Action where
  | probe (ipPort : String) (host : String) (port : Int) (timeout : Int) (curStatus : Status)
  | schedule (ipPort : String) (status : Status)
  deriving DecidableEq, Repr

/-- The surroundings of one call of `_tryConnect`:
`connRetryCount` is `p_conf->connRetryCount()`;
`serviceFatherToIp` is the member set of a service father in iteration order;
`serviceMap i` is `p_conf->serviceMap()` as fetched in the `i`-th pass of the `for` loop;
`stopped i` is `Process::isStop() || p_loadBalance->needReBalance()` when the loop
condition is evaluated for the `i`-th member;
`net ipPort k` is the behaviour of the network at the `k`-th probe of `ipPort`;
`answers` says that every probe of the scan has a result, that is, no probe gets to
`FD_SET` with a socket that does not fit into an `fd_set`. -/
structure Env where
  connRetryCount : Int
  serviceFatherToIp : String → List String
  serviceMap : Nat → String → Option ServiceItem
  stopped : Nat → Bool
  net : String → Nat → Net
  answers : ∀ (ipPort : String) (k : Nat) (timeout : Int) (curStatus : Status),
    (_isServiceExist (net ipPort k) timeout curStatus).isSome = true

/-- The state in which the `do ... while` loop of lines 150-154 is after at most `fuel`
probes: the derived `status`, the number of calls of `_isServiceExist` made so far and
whether the loop has been left. -/
structure Retry where
  status : Status
  probes : Nat
  finished : Bool
  deriving DecidableEq, Repr

/-- Lines 149-154: the retry loop. `exist k` is the result of the `k`-th call of
`_isServiceExist`; `curTryTimes` is never written inside the loop. The loop is run for
at most `fuel` probes, `n` probes having been made before. -/
def retryLoop (exist : Nat → Bool) (curTryTimes retryCount : Int) : Nat → Nat → Retry
  | 0, n => ⟨STATUS_DOWN, n, false⟩
  | fuel + 1, n =>
    let res := exist n
    let status := if res then STATUS_UP else STATUS_DOWN
    if curTryTimes < retryCount ∧ status = STATUS_DOWN then
      retryLoop exist curTryTimes retryCount fuel (n + 1)
    else
      ⟨status, n + 1, true⟩

/-- The effects of a scan, in order, and whether the scan has come to its end. -/
structure Scan where
  trace : List Action
  finished : Bool
  deriving DecidableEq, Repr

/-- Line 148: the timeout of the probes of an item, its own `connectTimeout()` when that
is positive and 3 seconds otherwise. -/
def timeoutOf (item : ServiceItem) : Int :=
  if item.connectTimeout > 0 then item.connectTimeout else 3

/-- The result of the `k`-th probe of `ipPort` in a scan (line 152). -/
def probeResult (env : Env) (ipPort : String) (item : ServiceItem) (k : Nat) : Bool :=
  ((_isServiceExist (env.net ipPort k) (timeoutOf item) item.status).get
    (env.answers ipPort k (timeoutOf item) item.status)).exist

/-- Lines 147-154: the retry loop as it is run on `item`, found under the key `ipPort`,
for at most `fuel` probes. -/
def retryOf (env : Env) (fuel : Nat) (ipPort : String) (item : ServiceItem) : Retry :=
  let oldStatus := item.status
  let curTryTimes : Int := if oldStatus = STATUS_UP then 1 else 3
  let retryCount := env.connRetryCount
  retryLoop (probeResult env ipPort item) curTryTimes retryCount fuel 0

/-- The call of `_isServiceExist` that a scan makes on `item` (line 152). -/
def probeOf (ipPort : String) (item : ServiceItem) : Action :=
  Action.probe ipPort item.host item.port (timeoutOf item) item.status

/-- Lines 130-161: the body of the `for` loop for the member `member`, reached as the
`i`-th member of the group; every retry loop is run for at most `fuel` probes. -/
def checkService (env : Env) (fuel : Nat) (curServiceFather : String) (i : Nat)
    (member : String) : Scan :=
  let serviceMap := env.serviceMap i
  let ipPort := curServiceFather ++ "/" ++ member
  match serviceMap ipPort with
  | none => ⟨[], true⟩
  | some item =>
    let oldStatus := item.status
    if oldStatus = STATUS_UNKNOWN ∨ oldStatus = STATUS_OFFLINE then
      ⟨[], true⟩
    else
      let r := retryOf env fuel ipPort item
      let calls := List.replicate r.probes (probeOf ipPort item)
      if r.finished then
        if r.status ≠ oldStatus then
          ⟨calls ++ [Action.schedule ipPort r.status], true⟩
        else
          ⟨calls, true⟩
      else
        ⟨calls, false⟩

/-- Lines 126-162: the `for` loop over the members still to visit, `i` members having
been visited before. -/
def scanFrom (env : Env) (fuel : Nat) (curServiceFather : String) :
    List String → Nat → Scan
  | [], _ => ⟨[], true⟩
  | member :: rest, i =>
    if env.stopped i then
      ⟨[], true⟩
    else
      let s := checkService env fuel curServiceFather i member
      if s.finished then
        let t := scanFrom env fuel curServiceFather rest (i + 1)
        ⟨s.trace ++ t.trace, t.finished⟩
      else
        s

/-- Lines 122-164: `CheckThread::_tryConnect`. -/
def _tryConnect (env : Env) (fuel : Nat) (curServiceFather : String) : Scan :=
  scanFrom env fuel curServiceFather (env.serviceFatherToIp curServiceFather) 0

/-- The instance an action is about. -/
def Action.ipPort : Action → String
  | Action.probe k _ _ _ _ => k
  | Action.schedule k _ => k

/-- The actions of a trace that are about the instance `ipPort`, in order. -/
def traceOn (ipPort : String) (trace : List Action) : List Action :=
  trace.filter fun a => a.ipPort == ipPort

/-- The number of calls of `_isServiceExist` in a trace. -/
def probesOf : List Action → Nat
  | [] => 0
  | Action.probe _ _ _ _ _ :: t => probesOf t + 1
  | Action.schedule _ _ :: t => probesOf t

/-- The events submitted to the update thread in a trace, in order. -/
def eventsOf : List Action → List (String × Status)
  | [] => []
  | Action.probe _ _ _ _ _ :: t => eventsOf t
  | Action.schedule k s :: t => (k, s) :: eventsOf t

/-- The scan of `father` gets to `member`: the member set of `father` is
`pre ++ member :: rest` without repetition, no stop or rebalance is seen up to the pass
for `member`, and the passes for the members before it come to their end. -/
structure Reaches (env : Env) (fuel : Nat) (father : String) (pre : List String)
    (member : String) (rest : List String) : Prop where
  members : env.serviceFatherToIp father = pre ++ member :: rest
  distinct : (pre ++ member :: rest).Nodup
  going : ∀ j, j ≤ pre.length → env.stopped j = false
  before : (scanFrom env fuel father pre 0).finished = true

/-! ## The timer loop `ThreadMain` -/

/-- A `struct timeval`; both fields are 64-bit `long`s, far from overflow for clock
values, and are taken as integers. -/
structure Timeval where
  tv_sec : Int
  tv_usec : Int
  deriving DecidableEq, Repr

/-- The instant a `timeval` denotes, in microseconds. -/
def Timeval.instant (t : Timeval) : Int :=
  t.tv_sec * 1000000 + t.tv_usec

/-- The conversion of a `long` value to the 32-bit `int` it is assigned to. -/
def toInt32 (x : Int) : Int :=
  (x + 2147483648) % 4294967296 - 2147483648

/-- Lines 171-172 and 181-182: `t.tv_sec + cron_interval_ / 1000` and
`t.tv_usec + (cron_interval_ % 1000) * 1000`, with the division and remainder of C;
`tv_usec` is not carried into `tv_sec`. -/
def addInterval (t : Timeval) (cron_interval_ : Int) : Timeval :=
  ⟨t.tv_sec + cron_interval_.tdiv 1000, t.tv_usec + (cron_interval_.tmod 1000) * 1000⟩

/-- Line 178: the test `when.tv_sec > now.tv_sec || (when.tv_sec == now.tv_sec &&
when.tv_usec > now.tv_usec)`. -/
def deadlineAhead (when now : Timeval) : Bool :=
  decide (when.tv_sec > now.tv_sec) ||
    (decide (when.tv_sec = now.tv_sec) && decide (when.tv_usec > now.tv_usec))

/-- The variables of `ThreadMain`: the deadline `when`, the `timeout` that is handed to
`sleep`, and the number of calls of `CronHandle` made so far. -/
structure Timer where
  when : Timeval
  timeout : Int
  cronCalls : Nat
  deriving DecidableEq, Repr

/-- Lines 167-173: the state before the loop is entered, `t0` being what `gettimeofday`
returned. -/
def ThreadMain.start (cron_interval_ : Int) (t0 : Timeval) : Timer :=
  ⟨addInterval t0 cron_interval_, cron_interval_, 0⟩

/-- Lines 176-187: one pass through the body of the `while` loop, `now` being what
`gettimeofday` returns in it; the `timeout` of the result is the argument of `sleep`. -/
def ThreadMain.iteration (cron_interval_ : Int) (st : Timer) (now : Timeval) : Timer :=
  if cron_interval_ > 0 then
    if deadlineAhead st.when now then
      ⟨st.when,
        toInt32 ((st.when.tv_sec - now.tv_sec) * 1000
          + (st.when.tv_usec - now.tv_usec).tdiv 1000),
        st.cronCalls⟩
    else
      ⟨addInterval now cron_interval_, cron_interval_, st.cronCalls + 1⟩
  else
    st

/-- Lines 166-190: `CheckThread::ThreadMain`, run for as many passes of the loop as
there are clock readings in `readings` (the loop goes on until a stop or a rebalance is
seen). -/
def ThreadMain (cron_interval_ : Int) (t0 : Timeval) (readings : List Timeval) : Timer :=
  readings.foldl (ThreadMain.iteration cron_interval_) (ThreadMain.start cron_interval_ t0)

/-! ## The slot table and `CronHandle` -/

/-- Modelled from the spec: the slot table of `WorkThread` (declared in a header that is
not part of the sources at hand): one occupied flag per slot and the shared cursor, the
next free index. -/
structure WorkThread where
  hasThread : List Bool
  waitingIndex : Nat
  deriving DecidableEq, Repr

/-- Modelled from the spec: `WorkThread::setHasThread(pos, flag)`, which is not part of
the sources at hand; it marks the slot `pos` occupied or unoccupied. -/
def WorkThread.setHasThread (w : WorkThread) (pos : Nat) (flag : Bool) : WorkThread :=
  ⟨w.hasThread.set pos flag, w.waitingIndex⟩

/-- Modelled from the spec: `WorkThread::getAndAddWaitingIndex()`, which is not part of
the sources at hand; a fetch-and-increment of the shared cursor that wraps at the total
group count. -/
def WorkThread.getAndAddWaitingIndex (w : WorkThread) (groupCount : Nat) :
    Nat × WorkThread :=
  (w.waitingIndex, ⟨w.hasThread, (w.waitingIndex + 1) % groupCount⟩)

/-- What one call of `CronHandle` leaves behind: the worker's `_service_pos`, the slot
table, and the scan it made (whose `finished` flag tells whether `_tryConnect`, and with
it `CronHandle`, has returned). -/
structure Tick where
  _service_pos : Nat
  workThread : WorkThread
  scan : Scan
  deriving DecidableEq, Repr

/-- Lines 192-206: `CheckThread::CronHandle`. `MAX_THREAD_NUM` is a constant of
`monitor_const.h` and `serviceFathers` is `p_loadBalance->myServiceFather()`. There is
no result when `_service_pos` is not an index of `serviceFathers`. -/
def CronHandle (MAX_THREAD_NUM : Nat) (serviceFathers : List String) (env : Env)
    (fuel : Nat) (_service_pos : Nat) (workThread : WorkThread) : Option Tick :=
  let serviceFatherNum := serviceFathers.length
  match serviceFathers[_service_pos]? with
  | none => none
  | some curServiceFather =>
    let scan := _tryConnect env fuel curServiceFather
    if scan.finished then
      if serviceFatherNum > MAX_THREAD_NUM then
        let w1 := workThread.setHasThread _service_pos false
        let next := w1.getAndAddWaitingIndex serviceFatherNum
        some ⟨next.1, next.2.setHasThread next.1 true, scan⟩
      else
        some ⟨_service_pos, workThread, scan⟩
    else
      some ⟨_service_pos, workThread, scan⟩

/-- What `CronHandle` is called with at one tick: the list of service fathers, the
surroundings of the scan and the bound on the probes of each retry loop. -/
structure TickInput where
  serviceFathers : List String
  env : Env
  fuel : Nat

/-- A sequence of ticks of one worker, one call of `CronHandle` per input; there is no
result when some call has none or does not return. -/
def runTicks (MAX_THREAD_NUM : Nat) :
    List TickInput → Nat → WorkThread → Option (Nat × WorkThread)
  | [], pos, w => some (pos, w)
  | inp :: rest, pos, w =>
    match CronHandle MAX_THREAD_NUM inp.serviceFathers inp.env inp.fuel pos w with
    | none => none
    | some t =>
      if t.scan.finished then
        runTicks MAX_THREAD_NUM rest t._service_pos t.workThread
      else
        none

/-- The outcome of `select` that a probe with the requested `timeout` gets to see. -/
def waitOutcome (net : Net) (timeout : Int) : SelectResult :=
  net.select (if timeout ≤ 0 then 1 else timeout)

/-- A probe that finds the port open: `connect` is in progress and `select` reports
the socket writable. -/
def openPort : Net :=
  ⟨3, -1, EINPROGRESS, fun _ => ⟨1, false, true, false⟩⟩

/-- A probe that runs into the timeout: `select` returns 0. -/
def deadPort : Net :=
  ⟨3, -1, EINPROGRESS, fun _ => ⟨0, false, false, false⟩⟩

/-- A port that answers within a second: `select` reports the socket writable when it
may wait for a second or more and returns 0 at once otherwise. -/
def slowPort : Net :=
  ⟨3, -1, EINPROGRESS,
    fun tv_sec => if 1 ≤ tv_sec then ⟨1, false, true, false⟩ else ⟨0, false, false, false⟩⟩

/-- The group `g1` with the members `a` (status UP), `b` (status DOWN), `c` (status
OFFLINE) and `d` (not in the service map); `reachable` tells which instances answer and
`retryCount` is the configured retry ceiling. -/
def scenario (retryCount : Int) (reachable : String → Bool) : Env :=
  ⟨retryCount,
    fun g => if g = "g1" then ["a", "b", "c", "d"] else [],
    fun _ k =>
      if k = "g1/a" then some ⟨"10.0.0.1", 80, 0, STATUS_UP⟩
      else if k = "g1/b" then some ⟨"10.0.0.2", 80, 0, STATUS_DOWN⟩
      else if k = "g1/c" then some ⟨"10.0.0.3", 80, 0, STATUS_OFFLINE⟩
      else none,
    fun _ => false,
    fun k _ => if reachable k then openPort else deadPort,
    fun k _ _ _ => by beta_reduce; cases reachable k <;> rfl⟩

/-! ## Lemmas on the retry loop -/

theorem retryLoop_no_retry (exist : Nat → Bool) (cur rc : Int) (h : ¬ cur < rc)
    (fuel n : Nat) :
    retryLoop exist cur rc (fuel + 1) n =
      ⟨if exist n then STATUS_UP else STATUS_DOWN, n + 1, true⟩ := by
  simp [retryLoop, h]

theorem retryLoop_stuck (exist : Nat → Bool) (cur rc : Int) (h : cur < rc)
    (hdown : ∀ k, exist k = false) (fuel n : Nat) :
    retryLoop exist cur rc fuel n = ⟨STATUS_DOWN, n + fuel, false⟩ := by
  induction fuel generalizing n with
  | zero => simp [retryLoop]
  | succ fuel ih =>
    simp only [retryLoop, hdown, h, true_and]
    simp [ih, Nat.add_comm, Nat.add_left_comm]

/-- When the loop has been left, at least one probe was made, the status is the one
derived from the last probe, and every earlier probe reported unreachable. -/
theorem retryLoop_finished (exist : Nat → Bool) (cur rc : Int) (fuel n : Nat)
    (h : (retryLoop exist cur rc fuel n).finished = true) :
    n < (retryLoop exist cur rc fuel n).probes ∧
    (retryLoop exist cur rc fuel n).status =
      (if exist ((retryLoop exist cur rc fuel n).probes - 1) then STATUS_UP
        else STATUS_DOWN) ∧
    ∀ k, n ≤ k → k + 1 < (retryLoop exist cur rc fuel n).probes → exist k = false := by
  induction fuel generalizing n with
  | zero => simp [retryLoop] at h
  | succ fuel ih =>
    unfold retryLoop at h ⊢
    by_cases hc : cur < rc ∧ (if exist n then STATUS_UP else STATUS_DOWN) = STATUS_DOWN
    · simp only [hc, and_self, if_true] at h ⊢
      obtain ⟨h1, h2, h3⟩ := ih (n + 1) h
      refine ⟨by omega, h2, ?_⟩
      intro k hk hk2
      rcases Nat.eq_or_lt_of_le hk with e | e
      · subst e
        by_contra hx
        simp at hx
        simp [hx] at hc
      · exact h3 k e hk2
    · simp only [hc, if_false]
      refine ⟨by simp, by simp, ?_⟩
      intro k hk hk2
      simp at hk2
      omega

/-- A loop that has been left with the status DOWN made a single pass. -/
theorem retryLoop_finished_down (exist : Nat → Bool) (cur rc : Int) (fuel n : Nat)
    (h : (retryLoop exist cur rc fuel n).finished = true)
    (hs : (retryLoop exist cur rc fuel n).status = STATUS_DOWN) :
    (retryLoop exist cur rc fuel n).probes = n + 1 ∧ exist n = false ∧ ¬ cur < rc := by
  induction fuel generalizing n with
  | zero => simp [retryLoop] at h
  | succ fuel ih =>
    unfold retryLoop at h hs ⊢
    by_cases hc : cur < rc ∧ (if exist n then STATUS_UP else STATUS_DOWN) = STATUS_DOWN
    · simp only [hc, and_self, if_true] at h hs ⊢
      exact absurd hc.1 (ih (n + 1) h hs).2.2
    · simp only [hc, if_false] at h hs ⊢
      have hs2 : (if exist n then STATUS_UP else STATUS_DOWN) = STATUS_DOWN := hs
      refine ⟨by simp, ?_, ?_⟩
      · by_contra hx
        simp at hx
        simp [hx] at hs2
      · intro hlt
        exact hc ⟨hlt, hs2⟩

/-! ## Lemmas on the scan -/

theorem key_injective (father m m' : String)
    (h : father ++ "/" ++ m = father ++ "/" ++ m') : m = m' := by
  have h2 := congrArg String.data h
  simp only [String.data_append, List.append_cancel_left_eq] at h2
  exact String.ext h2

theorem traceOn_eq_self (key : String) (t : List Action)
    (h : ∀ a ∈ t, a.ipPort = key) : traceOn key t = t := by
  unfold traceOn
  rw [List.filter_eq_self]
  intro a ha
  simp [h a ha]

theorem traceOn_eq_nil (key : String) (t : List Action)
    (h : ∀ a ∈ t, a.ipPort ≠ key) : traceOn key t = [] := by
  unfold traceOn
  rw [List.filter_eq_nil_iff]
  intro a ha
  simp [h a ha]

theorem traceOn_append (key : String) (t u : List Action) :
    traceOn key (t ++ u) = traceOn key t ++ traceOn key u := by
  simp [traceOn]

theorem checkService_keys (env : Env) (fuel : Nat) (father : String) (i : Nat)
    (m : String) :
    ∀ a ∈ (checkService env fuel father i m).trace, a.ipPort = father ++ "/" ++ m := by
  intro a ha
  unfold checkService at ha
  simp only at ha
  split at ha
  · simp at ha
  · split_ifs at ha
    · simp at ha
    · simp only [List.mem_append, List.mem_singleton] at ha
      rcases ha with ha | ha
      · rw [List.eq_of_mem_replicate ha]; rfl
      · rw [ha]; rfl
    · rw [List.eq_of_mem_replicate ha]; rfl
    · rw [List.eq_of_mem_replicate ha]; rfl

theorem scanFrom_keys (env : Env) (fuel : Nat) (father : String) (ms : List String)
    (i : Nat) :
    ∀ a ∈ (scanFrom env fuel father ms i).trace,
      ∃ m ∈ ms, a.ipPort = father ++ "/" ++ m := by
  induction ms generalizing i with
  | nil => intro a ha; simp [scanFrom] at ha
  | cons m ms ih =>
    intro a ha
    unfold scanFrom at ha
    by_cases hs : env.stopped i = true
    · simp [hs] at ha
    · by_cases hf : (checkService env fuel father i m).finished = true
      · simp only [hs, hf, Bool.false_eq_true, if_false, if_true, List.mem_append] at ha
        rcases ha with ha | ha
        · exact ⟨m, by simp, checkService_keys env fuel father i m a ha⟩
        · obtain ⟨m', hm', e⟩ := ih (i + 1) a ha
          exact ⟨m', by simp [hm'], e⟩
      · simp only [hs, hf, Bool.false_eq_true, if_false] at ha
        exact ⟨m, by simp, checkService_keys env fuel father i m a ha⟩

theorem traceOn_scanFrom_other (env : Env) (fuel : Nat) (father : String)
    (ms : List String) (i : Nat) (m : String) (h : m ∉ ms) :
    traceOn (father ++ "/" ++ m) (scanFrom env fuel father ms i).trace = [] := by
  apply traceOn_eq_nil
  intro a ha e
  obtain ⟨m', hm', e'⟩ := scanFrom_keys env fuel father ms i a ha
  rw [e] at e'
  exact h (key_injective father m m' e' ▸ hm')

theorem traceOn_checkService_other (env : Env) (fuel : Nat) (father : String)
    (i : Nat) (m m' : String) (h : m ≠ m') :
    traceOn (father ++ "/" ++ m) (checkService env fuel father i m').trace = [] := by
  apply traceOn_eq_nil
  intro a ha e
  rw [checkService_keys env fuel father i m' a ha] at e
  exact h (key_injective father m m' e.symm)

/-- The actions on a member in the trace of the loop: those of the pass for that member
when the loop gets there, none otherwise. -/
theorem traceOn_scanFrom (env : Env) (fuel : Nat) (father : String)
    (pre : List String) (member : String) (rest : List String) (i : Nat)
    (hd : (pre ++ member :: rest).Nodup) :
    traceOn (father ++ "/" ++ member)
        (scanFrom env fuel father (pre ++ member :: rest) i).trace =
      if (scanFrom env fuel father pre i).finished = true ∧
          ∀ j, j ≤ pre.length → env.stopped (i + j) = false then
        (checkService env fuel father (i + pre.length) member).trace
      else [] := by
  induction pre generalizing i with
  | nil =>
    have hr : member ∉ rest := (List.nodup_cons.mp hd).1
    simp only [List.nil_append, scanFrom, List.length_nil, Nat.le_zero_eq, forall_eq,
      Nat.add_zero, true_and]
    by_cases hs : env.stopped i = true
    · simp [hs, traceOn]
    · simp only [hs, Bool.false_eq_true, if_false]
      simp only [Bool.not_eq_true] at hs
      simp only [hs, if_true]
      split_ifs
      · simp only [traceOn_append]
        rw [traceOn_scanFrom_other env fuel father rest (i + 1) member hr,
          traceOn_eq_self _ _ (checkService_keys env fuel father i member)]
        simp
      · exact traceOn_eq_self _ _ (checkService_keys env fuel father i member)
  | cons p pre ih =>
    have hd2 : (pre ++ member :: rest).Nodup := (List.nodup_cons.mp hd).2
    have hne : member ≠ p := by
      intro e
      have := (List.nodup_cons.mp hd).1
      simp [e] at this
    simp only [List.cons_append, List.length_cons]
    simp only [scanFrom]
    by_cases hs : env.stopped i = true
    · have : ¬ ∀ j, j ≤ pre.length + 1 → env.stopped (i + j) = false := by
        intro hx
        have := hx 0 (by omega)
        simp [hs] at this
      simp [hs, this, traceOn]
    · simp only [hs, Bool.false_eq_true, if_false]
      simp only [Bool.not_eq_true] at hs
      by_cases hf : (checkService env fuel father i p).finished = true
      · simp only [hf, if_true, traceOn_append]
        rw [traceOn_checkService_other env fuel father i member p hne, ih (i + 1) hd2]
        have hiff : (∀ j, j ≤ pre.length → env.stopped (i + 1 + j) = false) ↔
            (∀ j, j ≤ pre.length + 1 → env.stopped (i + j) = false) := by
          constructor
          · intro hx j hj
            rcases Nat.eq_zero_or_pos j with e | e
            · subst e; simpa using hs
            · have := hx (j - 1) (by omega)
              rwa [show i + 1 + (j - 1) = i + j by omega] at this
          · intro hx j hj
            have := hx (j + 1) (by omega)
            rwa [show i + (j + 1) = i + 1 + j by omega] at this
        simp only [List.nil_append, hiff, show i + 1 + pre.length = i + (pre.length + 1) by omega]
      · simp only [hf, Bool.false_eq_true, if_false, false_and]
        exact traceOn_checkService_other env fuel father i member p hne

/-- The actions on a member that the scan gets to are those of the pass for it. -/
theorem traceOn_tryConnect (env : Env) (fuel : Nat) (father : String)
    (pre : List String) (member : String) (rest : List String)
    (hr : Reaches env fuel father pre member rest) :
    traceOn (father ++ "/" ++ member) (_tryConnect env fuel father).trace =
      (checkService env fuel father pre.length member).trace := by
  unfold _tryConnect
  rw [hr.members, traceOn_scanFrom env fuel father pre member rest 0 hr.distinct]
  have : (scanFrom env fuel father pre 0).finished = true ∧
      ∀ j, j ≤ pre.length → env.stopped (0 + j) = false :=
    ⟨hr.before, fun j hj => by simpa using hr.going j hj⟩
  rw [if_pos this, Nat.zero_add]

theorem eventsOf_replicate_probe (n : Nat) (key : String) (item : ServiceItem)
    (l : List Action) :
    eventsOf (List.replicate n (probeOf key item) ++ l) = eventsOf l := by
  induction n with
  | zero => simp
  | succ n ih => simpa [List.replicate_succ, probeOf, eventsOf] using ih

theorem probesOf_replicate_probe (n : Nat) (key : String) (item : ServiceItem)
    (l : List Action) :
    probesOf (List.replicate n (probeOf key item) ++ l) = probesOf l + n := by
  induction n with
  | zero => simp
  | succ n ih =>
    rw [List.replicate_succ, List.cons_append]
    show probesOf (List.replicate n (probeOf key item) ++ l) + 1 = _
    omega

/-- The pass for an item whose status is UP or DOWN: the probes of the retry loop,
followed by one event when the loop is left with a status other than the old one. -/
theorem checkService_checked (env : Env) (fuel : Nat) (father : String) (i : Nat)
    (member : String) (item : ServiceItem)
    (hitem : env.serviceMap i (father ++ "/" ++ member) = some item)
    (hst : item.status = STATUS_UP ∨ item.status = STATUS_DOWN) :
    checkService env fuel father i member =
      ⟨List.replicate (retryOf env fuel (father ++ "/" ++ member) item).probes
          (probeOf (father ++ "/" ++ member) item) ++
        (if (retryOf env fuel (father ++ "/" ++ member) item).finished = true ∧
            (retryOf env fuel (father ++ "/" ++ member) item).status ≠ item.status then
          [Action.schedule (father ++ "/" ++ member)
            (retryOf env fuel (father ++ "/" ++ member) item).status]
        else []),
        (retryOf env fuel (father ++ "/" ++ member) item).finished⟩ := by
  have h1 : ¬ (item.status = STATUS_UNKNOWN ∨ item.status = STATUS_OFFLINE) := by
    rcases hst with h | h <;> simp [h]
  unfold checkService
  simp only [hitem, h1, if_false]
  by_cases hf : (retryOf env fuel (father ++ "/" ++ member) item).finished = true
  · by_cases hs : (retryOf env fuel (father ++ "/" ++ member) item).status = item.status
    · simp [hf, hs]
    · simp [hf, hs]
  · simp [hf]

/-! ## The probe -/

/-- C5. Readiness decision of the probe: once the socket is created (and fits into an
`fd_set`) and `connect` returned 0 or failed with `EINPROGRESS`, `_isServiceExist`
returns true if and only if `select`, called with the floored timeout, returned a
positive value, the socket is not in the error set and it is in exactly one of the read
set and the write set; in every other case it returns false. -/
theorem isServiceExist_readiness (net : Net) (timeout : Int) (curStatus : Status)
    (hsock : 0 ≤ net.socketRet) (hfit : net.socketRet < FD_SETSIZE)
    (hconn : net.connectRet = 0 ∨ net.connectErrno = EINPROGRESS) :
    ∃ r, _isServiceExist net timeout curStatus = some r ∧
      (r.exist = true ↔
        0 < (waitOutcome net timeout).ret ∧ (waitOutcome net timeout).inErr = false ∧
          (waitOutcome net timeout).inRead ≠ (waitOutcome net timeout).inWrite) := by
  have h1 : ¬ net.socketRet < 0 := by omega
  have h2 : ¬ (net.connectRet ≠ 0 ∧ net.connectErrno ≠ EINPROGRESS) := by
    rcases hconn with h | h <;> simp [h]
  have h3 : ¬ net.socketRet ≥ FD_SETSIZE := by omega
  unfold _isServiceExist waitOutcome
  simp only [h1, h2, h3, if_false, readiness]
  refine ⟨_, rfl, ?_⟩
  generalize net.select (if timeout ≤ 0 then 1 else timeout) = r
  by_cases hret : r.ret ≤ 0
  · simp only [hret, if_true]
    constructor
    · intro h; simp at h
    · intro h; omega
  · simp only [hret, if_false]
    have hpos : 0 < r.ret := by omega
    cases hr : r.inRead <;> cases hw : r.inWrite <;> cases he : r.inErr <;> simp [hpos]

/-- The readiness decision at a port that answers within a second, probed with the
requested timeout 0: `select` waits for 1 second, reports the socket writable only, and
the probe returns true. -/
theorem isServiceExist_readiness_witness :
    (0 ≤ slowPort.socketRet ∧ slowPort.socketRet < FD_SETSIZE ∧
      (slowPort.connectRet = 0 ∨ slowPort.connectErrno = EINPROGRESS)) ∧
    (∃ r, _isServiceExist slowPort 0 STATUS_DOWN = some r ∧
      (r.exist = true ↔
        0 < (waitOutcome slowPort 0).ret ∧ (waitOutcome slowPort 0).inErr = false ∧
          (waitOutcome slowPort 0).inRead ≠ (waitOutcome slowPort 0).inWrite)) ∧
    (0 < (waitOutcome slowPort 0).ret ∧ (waitOutcome slowPort 0).inErr = false ∧
      (waitOutcome slowPort 0).inRead ≠ (waitOutcome slowPort 0).inWrite) :=
  ⟨by decide,
    isServiceExist_readiness slowPort 0 STATUS_DOWN (by decide) (by decide) (by decide),
    by decide⟩

/-- C6. Timeout floor: when `_isServiceExist` gets to its readiness wait, `select` is
called with `conn_tv.tv_sec` equal to 1 for a requested timeout of 0 or less and to the
requested timeout itself when that is positive, and the probe returns what the outcome
of that call decides; the wait is at least 1 second in both cases. -/
theorem isServiceExist_timeout_floor (net : Net) (timeout : Int) (curStatus : Status)
    (hsock : 0 ≤ net.socketRet) (hfit : net.socketRet < FD_SETSIZE)
    (hconn : net.connectRet = 0 ∨ net.connectErrno = EINPROGRESS) :
    (timeout ≤ 0 → _isServiceExist net timeout curStatus =
      some ⟨(readiness (net.select 1) curStatus).1, some 1, true,
        (readiness (net.select 1) curStatus).2⟩) ∧
    (0 < timeout → _isServiceExist net timeout curStatus =
      some ⟨(readiness (net.select timeout) curStatus).1, some timeout, true,
        (readiness (net.select timeout) curStatus).2⟩) ∧
    ∃ t, 1 ≤ t ∧ _isServiceExist net timeout curStatus =
      some ⟨(readiness (net.select t) curStatus).1, some t, true,
        (readiness (net.select t) curStatus).2⟩ := by
  have h1 : ¬ net.socketRet < 0 := by omega
  have h2 : ¬ (net.connectRet ≠ 0 ∧ net.connectErrno ≠ EINPROGRESS) := by
    rcases hconn with h | h <;> simp [h]
  have h3 : ¬ net.socketRet ≥ FD_SETSIZE := by omega
  unfold _isServiceExist
  simp only [h1, h2, h3, if_false]
  refine ⟨fun h => by simp [h], fun h => ?_, ?_⟩
  · have : ¬ timeout ≤ 0 := by omega
    simp [this]
  · by_cases h : timeout ≤ 0
    · exact ⟨1, by omega, by simp [h]⟩
    · exact ⟨timeout, by omega, by simp [h]⟩

/-- The timeout floor at a port that answers within a second, probed with the requested
timeout -2: `select` waits for 1 second and the probe returns true. -/
theorem isServiceExist_timeout_floor_witness :
    (0 ≤ slowPort.socketRet ∧ slowPort.socketRet < FD_SETSIZE ∧
      (slowPort.connectRet = 0 ∨ slowPort.connectErrno = EINPROGRESS)) ∧
    _isServiceExist slowPort (-2) STATUS_UP = some ⟨true, some 1, true, 0⟩ :=
  ⟨by decide,
    ((isServiceExist_timeout_floor slowPort (-2) STATUS_UP (by decide) (by decide)
      (by decide)).1 (by decide)).trans (by decide)⟩

/-! ## The scan of one group -/

/-- C1, as stated, fails: with the retry ceiling 3 the instance `g1/a`, UP in the
registry and unreachable, is probed again and again; whatever the bound on the number
of probes, the retry loop has not been left and no event has been submitted. -/
theorem up_unreachable_never_finishes :
    (∀ fuel, retryOf (scenario 3 fun _ => false) fuel "g1/a"
        ⟨"10.0.0.1", 80, 0, STATUS_UP⟩ = ⟨STATUS_DOWN, fuel, false⟩) ∧
    (∀ fuel, _tryConnect (scenario 3 fun _ => false) fuel "g1" =
        ⟨List.replicate fuel (probeOf "g1/a" ⟨"10.0.0.1", 80, 0, STATUS_UP⟩), false⟩) := by
  have h : ∀ fuel, retryOf (scenario 3 fun _ => false) fuel "g1/a"
      ⟨"10.0.0.1", 80, 0, STATUS_UP⟩ = ⟨STATUS_DOWN, fuel, false⟩ := by
    intro fuel
    have := retryLoop_stuck
      (probeResult (scenario 3 fun _ => false) "g1/a" ⟨"10.0.0.1", 80, 0, STATUS_UP⟩)
      1 3 (by decide) (fun _ => rfl) fuel 0
    simpa [retryOf] using this
  refine ⟨h, fun fuel => ?_⟩
  have hitem : (scenario 3 fun _ => false).serviceMap 0 ("g1" ++ "/" ++ "a") =
      some ⟨"10.0.0.1", 80, 0, STATUS_UP⟩ := by decide
  have hc := checkService_checked (scenario 3 fun _ => false) fuel "g1" 0 "a" _ hitem
    (Or.inl rfl)
  have hkey : "g1" ++ "/" ++ "a" = "g1/a" := by decide
  rw [hkey, h fuel] at hc
  have hm : (scenario 3 fun _ => false).serviceFatherToIp "g1" = ["a", "b", "c", "d"] := by
    decide
  have hs : (scenario 3 fun _ => false).stopped 0 = false := rfl
  unfold _tryConnect
  rw [hm, scanFrom, hc]
  simp [hs]

/-- C1, amended. Debounce, UP side: when the scan gets to an instance found in the
registry with status UP, the retry ceiling is at most 1 and the first probe reports
unreachable, the retry loop is left after exactly one probe with the status DOWN, and
the actions of `_tryConnect` on that instance are that one probe followed by the event
`(key, DOWN)`. -/
theorem up_unreachable_one_probe (env : Env) (fuel : Nat) (father : String)
    (pre : List String) (member : String) (rest : List String) (item : ServiceItem)
    (hr : Reaches env fuel father pre member rest)
    (hitem : env.serviceMap pre.length (father ++ "/" ++ member) = some item)
    (hup : item.status = STATUS_UP)
    (hceil : env.connRetryCount ≤ 1)
    (hfuel : 1 ≤ fuel)
    (hdown : probeResult env (father ++ "/" ++ member) item 0 = false) :
    retryOf env fuel (father ++ "/" ++ member) item = ⟨STATUS_DOWN, 1, true⟩ ∧
    traceOn (father ++ "/" ++ member) (_tryConnect env fuel father).trace =
      [probeOf (father ++ "/" ++ member) item,
        Action.schedule (father ++ "/" ++ member) STATUS_DOWN] ∧
    probesOf (traceOn (father ++ "/" ++ member) (_tryConnect env fuel father).trace) = 1 ∧
    eventsOf (traceOn (father ++ "/" ++ member) (_tryConnect env fuel father).trace) =
      [(father ++ "/" ++ member, STATUS_DOWN)] := by
  obtain ⟨f, rfl⟩ : ∃ f, fuel = f + 1 := ⟨fuel - 1, by omega⟩
  have hl : retryOf env (f + 1) (father ++ "/" ++ member) item = ⟨STATUS_DOWN, 1, true⟩ := by
    unfold retryOf
    simp only [hup, if_true]
    rw [retryLoop_no_retry _ _ _ (by omega), hdown]
    simp
  have ht := traceOn_tryConnect env (f + 1) father pre member rest hr
  rw [checkService_checked env (f + 1) father pre.length member item hitem (Or.inl hup),
    hl] at ht
  simp only [hup, List.replicate_one, true_and, ne_eq, reduceCtorEq, not_false_eq_true,
    if_true, List.singleton_append] at ht
  refine ⟨hl, ht, ?_, ?_⟩
  · rw [ht]; rfl
  · rw [ht]; rfl

/-- The scenario with the retry ceiling 1 and nothing reachable: `g1/a` is probed once and
reported DOWN. -/
theorem up_unreachable_one_probe_witness :
    (Reaches (scenario 1 fun _ => false) 4 "g1" [] "a" ["b", "c", "d"] ∧
      (scenario 1 fun _ => false).serviceMap 0 ("g1" ++ "/" ++ "a") =
        some ⟨"10.0.0.1", 80, 0, STATUS_UP⟩) ∧
    (retryOf (scenario 1 fun _ => false) 4 ("g1" ++ "/" ++ "a")
        ⟨"10.0.0.1", 80, 0, STATUS_UP⟩ = ⟨STATUS_DOWN, 1, true⟩ ∧
      traceOn ("g1" ++ "/" ++ "a") (_tryConnect (scenario 1 fun _ => false) 4 "g1").trace =
        [probeOf ("g1" ++ "/" ++ "a") ⟨"10.0.0.1", 80, 0, STATUS_UP⟩,
          Action.schedule ("g1" ++ "/" ++ "a") STATUS_DOWN] ∧
      probesOf (traceOn ("g1" ++ "/" ++ "a")
        (_tryConnect (scenario 1 fun _ => false) 4 "g1").trace) = 1 ∧
      eventsOf (traceOn ("g1" ++ "/" ++ "a")
        (_tryConnect (scenario 1 fun _ => false) 4 "g1").trace) =
        [("g1" ++ "/" ++ "a", STATUS_DOWN)]) :=
  have hr : Reaches (scenario 1 fun _ => false) 4 "g1" [] "a" ["b", "c", "d"] :=
    ⟨by decide, by decide, by decide, by decide⟩
  ⟨⟨hr, by decide⟩,
    up_unreachable_one_probe (scenario 1 fun _ => false) 4 "g1" [] "a" ["b", "c", "d"]
      ⟨"10.0.0.1", 80, 0, STATUS_UP⟩ hr (by decide) rfl (by decide) (by decide) (by decide)⟩

/-- C2, as stated, fails: with the retry ceiling 3 the instance `g1/b`, DOWN in the
registry and unreachable, is left at DOWN after a single probe, whatever the bound on
the number of probes; the scan of `g1` probes `g1/a` once and `g1/b` once and submits
nothing. -/
theorem down_unreachable_single_probe :
    (∀ fuel, retryOf (scenario 3 fun k => k == "g1/a") (fuel + 1) "g1/b"
        ⟨"10.0.0.2", 80, 0, STATUS_DOWN⟩ = ⟨STATUS_DOWN, 1, true⟩) ∧
    _tryConnect (scenario 3 fun k => k == "g1/a") 4 "g1" =
      ⟨[probeOf "g1/a" ⟨"10.0.0.1", 80, 0, STATUS_UP⟩,
        probeOf "g1/b" ⟨"10.0.0.2", 80, 0, STATUS_DOWN⟩], true⟩ ∧
    ¬ 3 ≤ (retryOf (scenario 3 fun k => k == "g1/a") 4 "g1/b"
        ⟨"10.0.0.2", 80, 0, STATUS_DOWN⟩).probes := by
  refine ⟨fun fuel => ?_, by decide, by decide⟩
  unfold retryOf
  simp only [reduceCtorEq, if_false]
  rw [retryLoop_no_retry _ _ _ (by decide)]
  rfl

/-- C2, amended. Debounce, not-UP side: when the scan gets to an instance found in the
registry with status DOWN and its retry loop is left with the derived status DOWN,
exactly one probe was made on that instance in this scan, that probe reported
unreachable, and no event is submitted for the instance; with a retry ceiling of at most
3 the loop is left after its first probe. -/
theorem down_left_after_one_probe (env : Env) (fuel : Nat) (father : String)
    (pre : List String) (member : String) (rest : List String) (item : ServiceItem)
    (hr : Reaches env fuel father pre member rest)
    (hitem : env.serviceMap pre.length (father ++ "/" ++ member) = some item)
    (hdown : item.status = STATUS_DOWN) :
    ((retryOf env fuel (father ++ "/" ++ member) item).finished = true →
      (retryOf env fuel (father ++ "/" ++ member) item).status = STATUS_DOWN →
      (retryOf env fuel (father ++ "/" ++ member) item).probes = 1 ∧
      probeResult env (father ++ "/" ++ member) item 0 = false ∧
      traceOn (father ++ "/" ++ member) (_tryConnect env fuel father).trace =
        [probeOf (father ++ "/" ++ member) item] ∧
      probesOf (traceOn (father ++ "/" ++ member) (_tryConnect env fuel father).trace) = 1 ∧
      eventsOf (traceOn (father ++ "/" ++ member) (_tryConnect env fuel father).trace) =
        []) ∧
    (env.connRetryCount ≤ 3 → 1 ≤ fuel →
      (retryOf env fuel (father ++ "/" ++ member) item).finished = true ∧
      (retryOf env fuel (father ++ "/" ++ member) item).probes = 1) := by
  refine ⟨fun hfin hst => ?_, fun hceil hfuel => ?_⟩
  · have hl := retryLoop_finished_down (probeResult env (father ++ "/" ++ member) item)
      (if item.status = STATUS_UP then 1 else 3) env.connRetryCount fuel 0 hfin hst
    have hp : (retryOf env fuel (father ++ "/" ++ member) item).probes = 1 := by
      simpa using hl.1
    have ht := traceOn_tryConnect env fuel father pre member rest hr
    rw [checkService_checked env fuel father pre.length member item hitem (Or.inr hdown),
      hp] at ht
    simp only [hst, hdown, ne_eq, not_true_eq_false, and_false, if_false,
      List.replicate_one, List.append_nil] at ht
    refine ⟨hp, hl.2.1, ht, ?_, ?_⟩
    · rw [ht]; rfl
    · rw [ht]; rfl
  · obtain ⟨f, rfl⟩ : ∃ f, fuel = f + 1 := ⟨fuel - 1, by omega⟩
    unfold retryOf
    simp only [hdown, reduceCtorEq, if_false]
    rw [retryLoop_no_retry _ _ _ (by omega)]
    exact ⟨rfl, rfl⟩

/-- The scenario with the retry ceiling 3 and only `g1/a` reachable: `g1/b` is left at DOWN
after one probe. -/
theorem down_left_after_one_probe_witness :
    (Reaches (scenario 3 fun k => k == "g1/a") 4 "g1" ["a"] "b" ["c", "d"] ∧
      (scenario 3 fun k => k == "g1/a").serviceMap 1 ("g1" ++ "/" ++ "b") =
        some ⟨"10.0.0.2", 80, 0, STATUS_DOWN⟩ ∧
      (retryOf (scenario 3 fun k => k == "g1/a") 4 ("g1" ++ "/" ++ "b")
        ⟨"10.0.0.2", 80, 0, STATUS_DOWN⟩).finished = true ∧
      (retryOf (scenario 3 fun k => k == "g1/a") 4 ("g1" ++ "/" ++ "b")
        ⟨"10.0.0.2", 80, 0, STATUS_DOWN⟩).status = STATUS_DOWN) ∧
    ((retryOf (scenario 3 fun k => k == "g1/a") 4 ("g1" ++ "/" ++ "b")
        ⟨"10.0.0.2", 80, 0, STATUS_DOWN⟩).probes = 1 ∧
      probeResult (scenario 3 fun k => k == "g1/a") ("g1" ++ "/" ++ "b")
        ⟨"10.0.0.2", 80, 0, STATUS_DOWN⟩ 0 = false ∧
      traceOn ("g1" ++ "/" ++ "b")
          (_tryConnect (scenario 3 fun k => k == "g1/a") 4 "g1").trace =
        [probeOf ("g1" ++ "/" ++ "b") ⟨"10.0.0.2", 80, 0, STATUS_DOWN⟩] ∧
      probesOf (traceOn ("g1" ++ "/" ++ "b")
        (_tryConnect (scenario 3 fun k => k == "g1/a") 4 "g1").trace) = 1 ∧
      eventsOf (traceOn ("g1" ++ "/" ++ "b")
        (_tryConnect (scenario 3 fun k => k == "g1/a") 4 "g1").trace) = []) :=
  have hr : Reaches (scenario 3 fun k => k == "g1/a") 4 "g1" ["a"] "b" ["c", "d"] :=
    ⟨by decide, by decide, by decide, by decide⟩
  ⟨⟨hr, by decide, by decide, by decide⟩,
    (down_left_after_one_probe (scenario 3 fun k => k == "g1/a") 4 "g1" ["a"] "b"
      ["c", "d"] ⟨"10.0.0.2", 80, 0, STATUS_DOWN⟩ hr (by decide) rfl).1
      (by decide) (by decide)⟩

/-- C3. Skip policy: a member whose key is absent from the service map, or whose status
is UNKNOWN or OFFLINE, is neither probed nor reported by `_tryConnect`, whatever the
network does; the pass of the loop for it does nothing and the loop goes on with the
next member. -/
theorem skipped_member_untouched (env : Env) (fuel : Nat) (father : String)
    (pre : List String) (member : String) (rest : List String)
    (hmem : env.serviceFatherToIp father = pre ++ member :: rest)
    (hd : (pre ++ member :: rest).Nodup)
    (hskip : env.serviceMap pre.length (father ++ "/" ++ member) = none ∨
      ∃ item, env.serviceMap pre.length (father ++ "/" ++ member) = some item ∧
        (item.status = STATUS_UNKNOWN ∨ item.status = STATUS_OFFLINE)) :
    traceOn (father ++ "/" ++ member) (_tryConnect env fuel father).trace = [] ∧
    checkService env fuel father pre.length member = ⟨[], true⟩ ∧
    scanFrom env fuel father (member :: rest) pre.length =
      (if env.stopped pre.length = true then ⟨[], true⟩
        else scanFrom env fuel father rest (pre.length + 1)) := by
  have hc : checkService env fuel father pre.length member = ⟨[], true⟩ := by
    unfold checkService
    rcases hskip with h | ⟨item, h, hs⟩
    · simp [h]
    · simp [h, hs]
  refine ⟨?_, hc, ?_⟩
  · unfold _tryConnect
    rw [hmem, traceOn_scanFrom env fuel father pre member rest 0 hd, Nat.zero_add, hc]
    simp
  · rw [scanFrom, hc]
    simp

/-- The scenario with everything reachable: the member `c`, OFFLINE in the registry, is
neither probed nor reported. -/
theorem skipped_member_untouched_witness :
    ((scenario 3 fun _ => true).serviceFatherToIp "g1" = ["a", "b"] ++ "c" :: ["d"] ∧
      (["a", "b"] ++ "c" :: ["d"]).Nodup ∧
      ((scenario 3 fun _ => true).serviceMap 2 ("g1" ++ "/" ++ "c") = none ∨
        ∃ item, (scenario 3 fun _ => true).serviceMap 2 ("g1" ++ "/" ++ "c") = some item ∧
          (item.status = STATUS_UNKNOWN ∨ item.status = STATUS_OFFLINE))) ∧
    (traceOn ("g1" ++ "/" ++ "c") (_tryConnect (scenario 3 fun _ => true) 4 "g1").trace = [] ∧
      checkService (scenario 3 fun _ => true) 4 "g1" 2 "c" = ⟨[], true⟩ ∧
      scanFrom (scenario 3 fun _ => true) 4 "g1" ("c" :: ["d"]) 2 =
        (if (scenario 3 fun _ => true).stopped 2 = true then ⟨[], true⟩
          else scanFrom (scenario 3 fun _ => true) 4 "g1" ["d"] (2 + 1))) :=
  have hs : (scenario 3 fun _ => true).serviceMap 2 ("g1" ++ "/" ++ "c") = none ∨
      ∃ item, (scenario 3 fun _ => true).serviceMap 2 ("g1" ++ "/" ++ "c") = some item ∧
        (item.status = STATUS_UNKNOWN ∨ item.status = STATUS_OFFLINE) :=
    Or.inr ⟨⟨"10.0.0.3", 80, 0, STATUS_OFFLINE⟩, by decide, Or.inr rfl⟩
  ⟨⟨by decide, by decide, hs⟩,
    skipped_member_untouched (scenario 3 fun _ => true) 4 "g1" ["a", "b"] "c" ["d"]
      (by decide) (by decide) hs⟩

/-- C4. Events only on change: when the scan gets to an instance whose status is UP or
DOWN, the actions of `_tryConnect` on it are the probes of its retry loop, followed,
once the loop is left, by exactly one event `(key, s)` when the derived status `s` (UP
if the last probe reported reachable, DOWN otherwise) differs from the old status and by
no event when it equals it; an instance that is UP and reachable, or DOWN and
unreachable, gets no event. -/
theorem events_only_on_change (env : Env) (fuel : Nat) (father : String)
    (pre : List String) (member : String) (rest : List String) (item : ServiceItem)
    (hr : Reaches env fuel father pre member rest)
    (hitem : env.serviceMap pre.length (father ++ "/" ++ member) = some item)
    (hst : item.status = STATUS_UP ∨ item.status = STATUS_DOWN) :
    ((retryOf env fuel (father ++ "/" ++ member) item).finished = true →
      0 < (retryOf env fuel (father ++ "/" ++ member) item).probes ∧
      (retryOf env fuel (father ++ "/" ++ member) item).status =
        (if probeResult env (father ++ "/" ++ member) item
            ((retryOf env fuel (father ++ "/" ++ member) item).probes - 1) = true
          then STATUS_UP else STATUS_DOWN) ∧
      eventsOf (traceOn (father ++ "/" ++ member) (_tryConnect env fuel father).trace) =
        (if (retryOf env fuel (father ++ "/" ++ member) item).status ≠ item.status then
          [(father ++ "/" ++ member,
            (retryOf env fuel (father ++ "/" ++ member) item).status)]
        else [])) ∧
    ((retryOf env fuel (father ++ "/" ++ member) item).finished = false →
      eventsOf (traceOn (father ++ "/" ++ member) (_tryConnect env fuel father).trace) =
        []) ∧
    probesOf (traceOn (father ++ "/" ++ member) (_tryConnect env fuel father).trace) =
      (retryOf env fuel (father ++ "/" ++ member) item).probes ∧
    ((item.status = STATUS_UP ∧
        (∀ k, probeResult env (father ++ "/" ++ member) item k = true)) ∨
      (item.status = STATUS_DOWN ∧
        (∀ k, probeResult env (father ++ "/" ++ member) item k = false)) →
      eventsOf (traceOn (father ++ "/" ++ member) (_tryConnect env fuel father).trace) =
        []) := by
  have ht := traceOn_tryConnect env fuel father pre member rest hr
  rw [checkService_checked env fuel father pre.length member item hitem hst] at ht
  simp only at ht
  have hev : eventsOf (traceOn (father ++ "/" ++ member) (_tryConnect env fuel father).trace)
      = (if (retryOf env fuel (father ++ "/" ++ member) item).finished = true ∧
            (retryOf env fuel (father ++ "/" ++ member) item).status ≠ item.status then
          [(father ++ "/" ++ member,
            (retryOf env fuel (father ++ "/" ++ member) item).status)]
        else []) := by
    rw [ht, eventsOf_replicate_probe]
    split_ifs <;> rfl
  have hlast := retryLoop_finished (probeResult env (father ++ "/" ++ member) item)
    (if item.status = STATUS_UP then 1 else 3) env.connRetryCount fuel 0
  refine ⟨fun hfin => ⟨?_, ?_, ?_⟩, fun hnf => ?_, ?_, ?_⟩
  · exact (hlast hfin).1
  · exact (hlast hfin).2.1
  · rw [hev]; simp [hfin]
  · rw [hev]; simp [hnf]
  · rw [ht, probesOf_replicate_probe]
    split_ifs <;> simp [probesOf]
  · intro hmatch
    rw [hev]
    by_cases hfin : (retryOf env fuel (father ++ "/" ++ member) item).finished = true
    · have hs := (hlast hfin).2.1
      have hs2 : (retryOf env fuel (father ++ "/" ++ member) item).status = item.status := by
        rcases hmatch with ⟨h1, h2⟩ | ⟨h1, h2⟩
        · rw [h1]
          exact hs.trans (by simp [h2])
        · rw [h1]
          exact hs.trans (by simp [h2])
      simp [hs2]
    · simp [hfin]

/-- The scenario with the retry ceiling 1 and only `g1/b` reachable: the one event for
`g1/b`, DOWN in the registry, is `(g1/b, UP)`. -/
theorem events_only_on_change_witness :
    (Reaches (scenario 1 fun k => k == "g1/b") 4 "g1" ["a"] "b" ["c", "d"] ∧
      (scenario 1 fun k => k == "g1/b").serviceMap 1 ("g1" ++ "/" ++ "b") =
        some ⟨"10.0.0.2", 80, 0, STATUS_DOWN⟩) ∧
    eventsOf (traceOn ("g1" ++ "/" ++ "b")
      (_tryConnect (scenario 1 fun k => k == "g1/b") 4 "g1").trace) =
      [("g1/b", STATUS_UP)] :=
  have hr : Reaches (scenario 1 fun k => k == "g1/b") 4 "g1" ["a"] "b" ["c", "d"] :=
    ⟨by decide, by decide, by decide, by decide⟩
  have h := events_only_on_change (scenario 1 fun k => k == "g1/b") 4 "g1" ["a"] "b"
    ["c", "d"] ⟨"10.0.0.2", 80, 0, STATUS_DOWN⟩ hr (by decide) (Or.inr rfl)
  ⟨⟨hr, by decide⟩, (h.1 (by decide)).2.2.trans (by decide)⟩

/-! ## The timer loop -/

/-- The quotient of C for a divisor 1000, in terms of the floor quotient. -/
theorem tdiv_thousand (a : Int) :
    a.tdiv 1000 = if 0 ≤ a then a / 1000 else -((-a) / 1000) := by
  split_ifs with h
  · exact Int.tdiv_eq_ediv h (by decide)
  · have h2 : (0 : Int) ≤ -a := by omega
    have := Int.tdiv_eq_ediv h2 (show (0 : Int) ≤ 1000 by decide)
    rw [Int.neg_tdiv] at this
    omega

theorem tmod_thousand (a : Int) (h : 0 ≤ a) : a.tmod 1000 = a % 1000 :=
  Int.tmod_eq_emod h (by decide)

/-- The instant of `t + interval` is the instant of `t` plus the interval. -/
theorem instant_addInterval (t : Timeval) (interval : Int) (h : 0 < interval) :
    (addInterval t interval).instant = t.instant + interval * 1000 := by
  unfold addInterval Timeval.instant
  simp only
  rw [tdiv_thousand, tmod_thousand interval (by omega), if_pos (by omega)]
  omega

/-- C9, as stated, fails: with an interval of 1000 ms and the deadline `(11, 0)`, a wake
at `(11, 0)` runs the pass; when the pass completes 5 s later, at `(16, 0)`, the stored
deadline is `(12, 0)`, one interval after the wake, not one interval after the
completion. -/
theorem deadline_not_from_completion :
    deadlineAhead (ThreadMain.start 1000 ⟨10, 0⟩).when ⟨11, 0⟩ = false ∧
    (⟨11, 0⟩ : Timeval).instant + 1000 * 1000 < (⟨16, 0⟩ : Timeval).instant ∧
    (ThreadMain.iteration 1000 (ThreadMain.start 1000 ⟨10, 0⟩) ⟨11, 0⟩).when = ⟨12, 0⟩ ∧
    (ThreadMain.iteration 1000 (ThreadMain.start 1000 ⟨10, 0⟩) ⟨11, 0⟩).when ≠
      addInterval ⟨16, 0⟩ 1000 := by
  decide

/-- C9, amended. Clamp-and-catch-up: in a pass of the loop in which the deadline has
passed, the deadline stored for the next tick is the time read at the start of that pass,
before `CronHandle` ran, plus the interval, so that it lies before the completion of a
`CronHandle` that takes longer than the interval; `CronHandle` runs once and the wait
handed to `sleep` is the interval, which is not negative. -/
theorem fired_tick_deadline (interval : Int) (st : Timer) (now done : Timeval)
    (hpos : 0 < interval)
    (hpassed : deadlineAhead st.when now = false)
    (hlong : now.instant + interval * 1000 < done.instant) :
    (ThreadMain.iteration interval st now).when = addInterval now interval ∧
    (ThreadMain.iteration interval st now).when.instant = now.instant + interval * 1000 ∧
    (ThreadMain.iteration interval st now).when.instant < done.instant ∧
    (ThreadMain.iteration interval st now).cronCalls = st.cronCalls + 1 ∧
    (ThreadMain.iteration interval st now).timeout = interval ∧
    0 ≤ (ThreadMain.iteration interval st now).timeout := by
  have h : ThreadMain.iteration interval st now =
      ⟨addInterval now interval, interval, st.cronCalls + 1⟩ := by
    unfold ThreadMain.iteration
    simp [hpos, hpassed]
  rw [h]
  simp only [true_and]
  rw [instant_addInterval now interval hpos]
  exact ⟨rfl, hlong, by omega⟩

/-- A wake at `(11, 0)` with the deadline `(11, 0)` and an interval of 1000 ms: the new
deadline is the wake plus the interval. -/
theorem fired_tick_deadline_witness :
    ((0 : Int) < 1000 ∧
      deadlineAhead (ThreadMain.start 1000 ⟨10, 0⟩).when ⟨11, 0⟩ = false ∧
      (⟨11, 0⟩ : Timeval).instant + 1000 * 1000 < (⟨16, 0⟩ : Timeval).instant) ∧
    (ThreadMain.iteration 1000 (ThreadMain.start 1000 ⟨10, 0⟩) ⟨11, 0⟩).when =
      addInterval ⟨11, 0⟩ 1000 :=
  ⟨by decide,
    (fired_tick_deadline 1000 (ThreadMain.start 1000 ⟨10, 0⟩) ⟨11, 0⟩ ⟨16, 0⟩
      (by decide) (by decide) (by decide)).1⟩

/-- C10. The code departs from the early-wake guard at one place: with an interval of
1500 ms and a start at `(10, 600000)` the stored deadline is `(11, 1100000)`, the instant
12.1 s; at the wake `(12, 50000)`, the instant 12.05 s, the deadline is still ahead and
the remaining time computed as in line 179 is 50 ms, yet the test of line 178 fails and
the pass runs `CronHandle` and moves the deadline. -/
theorem early_wake_runs_before_deadline :
    (ThreadMain 1500 ⟨10, 600000⟩ []).when = ⟨11, 1100000⟩ ∧
    (⟨12, 50000⟩ : Timeval).instant < (ThreadMain 1500 ⟨10, 600000⟩ []).when.instant ∧
    ((ThreadMain 1500 ⟨10, 600000⟩ []).when.tv_sec - 12) * 1000
      + ((ThreadMain 1500 ⟨10, 600000⟩ []).when.tv_usec - 50000).tdiv 1000 = 50 ∧
    deadlineAhead (ThreadMain 1500 ⟨10, 600000⟩ []).when ⟨12, 50000⟩ = false ∧
    (ThreadMain 1500 ⟨10, 600000⟩ []).cronCalls = 0 ∧
    ThreadMain.iteration 1500 (ThreadMain 1500 ⟨10, 600000⟩ []) ⟨12, 50000⟩ =
      ⟨⟨13, 550000⟩, 1500, 1⟩ := by
  decide

/-! ## The slot rotation -/

/-- With no more groups than `MAX_THREAD_NUM`, a call of `CronHandle` leaves the slot
index and the slot table as they were. -/
theorem CronHandle_steady (MAX_THREAD_NUM : Nat) (serviceFathers : List String)
    (env : Env) (fuel pos : Nat) (w : WorkThread)
    (h : serviceFathers.length ≤ MAX_THREAD_NUM) (t : Tick)
    (ht : CronHandle MAX_THREAD_NUM serviceFathers env fuel pos w = some t) :
    t._service_pos = pos ∧ t.workThread = w := by
  unfold CronHandle at ht
  have h2 : ¬ serviceFathers.length > MAX_THREAD_NUM := by omega
  cases hg : serviceFathers[pos]? with
  | none => simp [hg] at ht
  | some g =>
    simp only [hg, h2, if_false, ite_self, Option.some.injEq] at ht
    rw [← ht]
    exact ⟨rfl, rfl⟩

/-- The value of `CronHandle` at an index of the list of groups. -/
theorem CronHandle_at (MAX_THREAD_NUM : Nat) (serviceFathers : List String)
    (env : Env) (fuel pos : Nat) (w : WorkThread) (hpos : pos < serviceFathers.length)
    (hfin : ∀ g ∈ serviceFathers, (_tryConnect env fuel g).finished = true) :
    ∃ scan, scan.finished = true ∧
      CronHandle MAX_THREAD_NUM serviceFathers env fuel pos w =
        some (if serviceFathers.length > MAX_THREAD_NUM then
          ⟨w.waitingIndex,
            ⟨(w.hasThread.set pos false).set w.waitingIndex true,
              (w.waitingIndex + 1) % serviceFathers.length⟩, scan⟩
        else ⟨pos, w, scan⟩) := by
  have hg : serviceFathers[pos]? = some serviceFathers[pos] :=
    List.getElem?_eq_getElem hpos
  have hf := hfin serviceFathers[pos] (List.getElem_mem hpos)
  refine ⟨_tryConnect env fuel serviceFathers[pos], hf, ?_⟩
  unfold CronHandle
  simp only [hg, hf, if_true]
  split_ifs <;> rfl

theorem runTicks_steady (MAX_THREAD_NUM : Nat) (inputs : List TickInput) (pos : Nat)
    (w : WorkThread)
    (hsmall : ∀ inp ∈ inputs, inp.serviceFathers.length ≤ MAX_THREAD_NUM)
    (out : Nat × WorkThread) (h : runTicks MAX_THREAD_NUM inputs pos w = some out) :
    out = (pos, w) := by
  induction inputs with
  | nil =>
    simp only [runTicks, Option.some.injEq] at h
    exact h.symm
  | cons inp rest ih =>
    unfold runTicks at h
    cases hc : CronHandle MAX_THREAD_NUM inp.serviceFathers inp.env inp.fuel pos w with
    | none => simp [hc] at h
    | some t =>
      obtain ⟨h1, h2⟩ := CronHandle_steady MAX_THREAD_NUM inp.serviceFathers inp.env
        inp.fuel pos w (hsmall inp (by simp)) t hc
      simp only [hc] at h
      by_cases hf : t.scan.finished = true
      · simp only [hf, if_true, h1, h2] at h
        exact ih (fun i hi => hsmall i (by simp [hi])) h
      · simp [hf] at h

theorem runTicks_steady_some (MAX_THREAD_NUM : Nat) (inputs : List TickInput) (pos : Nat)
    (w : WorkThread)
    (hsmall : ∀ inp ∈ inputs, inp.serviceFathers.length ≤ MAX_THREAD_NUM)
    (hrun : ∀ inp ∈ inputs, pos < inp.serviceFathers.length ∧
      ∀ g ∈ inp.serviceFathers, (_tryConnect inp.env inp.fuel g).finished = true) :
    runTicks MAX_THREAD_NUM inputs pos w = some (pos, w) := by
  induction inputs with
  | nil => rfl
  | cons inp rest ih =>
    unfold runTicks
    obtain ⟨scan, hf, hc⟩ := CronHandle_at MAX_THREAD_NUM inp.serviceFathers inp.env
      inp.fuel pos w (hrun inp (by simp)).1 (hrun inp (by simp)).2
    have h2 : ¬ inp.serviceFathers.length > MAX_THREAD_NUM := by
      have := hsmall inp (by simp)
      omega
    rw [hc]
    simp only [h2, if_false, hf, if_true]
    exact ih (fun i hi => hsmall i (by simp [hi])) (fun i hi => hrun i (by simp [hi]))

/-- C7. Steady assignment: over any sequence of ticks in which the number of groups is
at most `MAX_THREAD_NUM`, a call of `CronHandle` returns the slot index and the slot
table (occupied flags and cursor) it was called with, the slot index after each tick is
the one before the first tick, and the ticks do return when the slot index is an index
of the list of groups and the scans come to their end. -/
theorem steady_assignment (MAX_THREAD_NUM : Nat) (inputs : List TickInput) (pos : Nat)
    (w : WorkThread)
    (hsmall : ∀ inp ∈ inputs, inp.serviceFathers.length ≤ MAX_THREAD_NUM) :
    (∀ inp ∈ inputs, ∀ (p : Nat) (table : WorkThread) (t : Tick),
      CronHandle MAX_THREAD_NUM inp.serviceFathers inp.env inp.fuel p table = some t →
        t._service_pos = p ∧ t.workThread = table) ∧
    (∀ k out, runTicks MAX_THREAD_NUM (inputs.take k) pos w = some out → out = (pos, w)) ∧
    ((∀ inp ∈ inputs, pos < inp.serviceFathers.length ∧
        ∀ g ∈ inp.serviceFathers, (_tryConnect inp.env inp.fuel g).finished = true) →
      ∀ k, runTicks MAX_THREAD_NUM (inputs.take k) pos w = some (pos, w)) := by
  refine ⟨fun inp hi p table t ht => ?_, fun k out h => ?_, fun hrun k => ?_⟩
  · exact CronHandle_steady MAX_THREAD_NUM inp.serviceFathers inp.env inp.fuel p table
      (hsmall inp hi) t ht
  · exact runTicks_steady MAX_THREAD_NUM (inputs.take k) pos w
      (fun i hi => hsmall i (List.mem_of_mem_take hi)) out h
  · exact runTicks_steady_some MAX_THREAD_NUM (inputs.take k) pos w
      (fun i hi => hsmall i (List.mem_of_mem_take hi))
      (fun i hi => hrun i (List.mem_of_mem_take hi))

/-- Two ticks of the worker on the slot 1, with 2 and then 3 groups and `MAX_THREAD_NUM`
equal to 3: slot index and slot table are unchanged. -/
theorem steady_assignment_witness :
    (∀ inp ∈ [(⟨["g0", "g1"], scenario 1 fun _ => false, 4⟩ : TickInput),
        ⟨["g0", "g1", "g2"], scenario 3 fun _ => true, 4⟩],
      inp.serviceFathers.length ≤ 3) ∧
    runTicks 3 [(⟨["g0", "g1"], scenario 1 fun _ => false, 4⟩ : TickInput),
        ⟨["g0", "g1", "g2"], scenario 3 fun _ => true, 4⟩] 1 ⟨[false, true, false], 2⟩ =
      some (1, ⟨[false, true, false], 2⟩) :=
  have hs : ∀ inp ∈ [(⟨["g0", "g1"], scenario 1 fun _ => false, 4⟩ : TickInput),
        ⟨["g0", "g1", "g2"], scenario 3 fun _ => true, 4⟩],
      inp.serviceFathers.length ≤ 3 := by
    intro inp hi
    simp only [List.mem_cons, List.mem_singleton, List.not_mem_nil, or_false] at hi
    rcases hi with rfl | rfl <;> decide
  have hrun : ∀ inp ∈ [(⟨["g0", "g1"], scenario 1 fun _ => false, 4⟩ : TickInput),
        ⟨["g0", "g1", "g2"], scenario 3 fun _ => true, 4⟩],
      1 < inp.serviceFathers.length ∧
        ∀ g ∈ inp.serviceFathers, (_tryConnect inp.env inp.fuel g).finished = true := by
    intro inp hi
    simp only [List.mem_cons, List.mem_singleton, List.not_mem_nil, or_false] at hi
    rcases hi with rfl | rfl <;> decide
  ⟨hs, (steady_assignment 3 _ 1 ⟨[false, true, false], 2⟩ hs).2.2 hrun 2⟩

end CheckThread
